import Mathlib

/-!
Shallow embedding of `src/lib/tree.js` from eslint-plugin-xss: AST node
introspection helpers (`getIdentifier`, `getNodeName`, `getFullItemName`,
`getPartialItemName`, `getParentFunctionIdentifier`, `isParameter`).

Modelling conventions:
* A JS AST node is a `Node`: a `ref` field models the address of the object, so
  JS reference equality `a === b` on node objects is `a.ref = b.ref`.
* Node-valued fields are `Option Node`: `none` models JS `null`/`undefined`
  (the code under scrutiny only ever distinguishes them by truthiness).
* `name` is `Option String`: `none` models a missing/undefined `name` field
  (e.g. the `property` of a computed member access that is not an
  `Identifier`).
* JS property access on a nullish value throws a TypeError; functions that
  can hit such an access return `Except Unit _`, where `.error ()` is the
  thrown TypeError. `deref` is used at each point where the code would
  next dereference a possibly-nullish variable.
* The upward `parent` links of ESLint nodes are modelled for
  `getParentFunctionIdentifier` as the explicit chain
  `node :: node.parent :: node.parent.parent :: ...` (a `List Node`);
  the empty list is a nullish `func` variable.
-/

inductive Node : Type where
  | mk (ref : Nat) (type : String) (computed : Bool) (name : Option String)
       (callee object property id left right init value alternate consequent body
         : Option Node)
       (arguments elements : List Node)

namespace Node

def ref : Node → Nat
  | .mk r _ _ _ _ _ _ _ _ _ _ _ _ _ _ _ _ => r

def type : Node → String
  | .mk _ t _ _ _ _ _ _ _ _ _ _ _ _ _ _ _ => t

def computed : Node → Bool
  | .mk _ _ c _ _ _ _ _ _ _ _ _ _ _ _ _ _ => c

def name : Node → Option String
  | .mk _ _ _ n _ _ _ _ _ _ _ _ _ _ _ _ _ => n

def callee : Node → Option Node
  | .mk _ _ _ _ c _ _ _ _ _ _ _ _ _ _ _ _ => c

def object : Node → Option Node
  | .mk _ _ _ _ _ o _ _ _ _ _ _ _ _ _ _ _ => o

def property : Node → Option Node
  | .mk _ _ _ _ _ _ p _ _ _ _ _ _ _ _ _ _ => p

def id : Node → Option Node
  | .mk _ _ _ _ _ _ _ i _ _ _ _ _ _ _ _ _ => i

def left : Node → Option Node
  | .mk _ _ _ _ _ _ _ _ l _ _ _ _ _ _ _ _ => l

def right : Node → Option Node
  | .mk _ _ _ _ _ _ _ _ _ r _ _ _ _ _ _ _ => r

def init : Node → Option Node
  | .mk _ _ _ _ _ _ _ _ _ _ i _ _ _ _ _ _ => i

def value : Node → Option Node
  | .mk _ _ _ _ _ _ _ _ _ _ _ v _ _ _ _ _ => v

def alternate : Node → Option Node
  | .mk _ _ _ _ _ _ _ _ _ _ _ _ a _ _ _ _ => a

def consequent : Node → Option Node
  | .mk _ _ _ _ _ _ _ _ _ _ _ _ _ c _ _ _ => c

def body : Node → Option Node
  | .mk _ _ _ _ _ _ _ _ _ _ _ _ _ _ b _ _ => b

def arguments : Node → List Node
  | .mk _ _ _ _ _ _ _ _ _ _ _ _ _ _ _ a _ => a

def elements : Node → List Node
  | .mk _ _ _ _ _ _ _ _ _ _ _ _ _ _ _ _ e => e

end Node

/-- Dereference a possibly-nullish JS value: a property access on
`null`/`undefined` throws a TypeError. -/
def deref : Option Node → Except Unit Node
  | some n => .ok n
  | none => .error ()

/-- Node builders for concrete test trees (all unused fields absent). -/
def identNode (r : Nat) (nm : String) : Node :=
  .mk r "Identifier" false (some nm) none none none none none none none none
    none none none [] []

/-- A bare node of the given type, with all fields absent. -/
def bareNode (r : Nat) (ty : String) : Node :=
  .mk r ty false none none none none none none none none none none none none [] []

/-- A member expression `obj.prop` (or `obj[prop]` when `comp`). -/
def memberNode (r : Nat) (comp : Bool) (obj prop : Node) : Node :=
  .mk r "MemberExpression" comp none none (some obj) (some prop) none none none
    none none none none none [] []

/-- A call expression `callee(args...)`. -/
def callNode (r : Nat) (cal : Node) (args : List Node) : Node :=
  .mk r "CallExpression" false none (some cal) none none none none none none
    none none none none args []

/--
Embeds the unwrap phase of `getIdentifier`: the two reassignments of `node`
(`node = node.callee` for a call, then `node = node.object` /
`node = node.property` for a member access).  After each reassignment the
source immediately reads `node.type`, so a nullish value throws there:
`deref` at the reassignment is observationally the same point.
-/
def idUnwrap (node : Node) : Except Unit Node := do
  let node ← if node.type = "CallExpression" then deref node.callee else pure node
  if node.type = "MemberExpression" then
    if node.computed then deref node.object else deref node.property
  else pure node

/-- Embeds `tree.getIdentifier`: unwrap, then `null` unless an `Identifier`
remains. -/
def getIdentifier (node : Node) : Except Unit (Option Node) := do
  let node ← idUnwrap node
  if node.type ≠ "Identifier" then return none
  return some node

/-- Embeds `tree.getNodeName`: the string "this" for a `ThisExpression`,
else the `name` of the resolved identifier (possibly `undefined` = `none`),
else the empty string. -/
def getNodeName (node : Node) : Except Unit (Option String) := do
  if node.type = "ThisExpression" then return some "this"
  let id ← getIdentifier node
  match id with
  | some i => return i.name
  | none => return some ""

/-- An array `join` in JS: `undefined`/`null` elements render as the empty
string. -/
def jsJoin (sep : String) (l : List (Option String)) : String :=
  String.intercalate sep (l.map (fun o => o.getD ""))

/--
The member-expression `while` loop of `getFullItemName`:
push `func.property.name` (reading `.name` of a nullish `property` throws),
then descend into `func.object` (the next loop iteration reads `func.type`,
so a nullish `object` throws there).  Returns the accumulator together with
the node left when the loop exits.
-/
def fullLoop (func : Node) (acc : List (Option String)) :
    Except Unit (List (Option String) × Node) :=
  if func.type = "MemberExpression" then
    match func.property with
    | none => .error ()
    | some p =>
      match ho : func.object with
      | none => .error ()
      | some o => fullLoop o (acc ++ [p.name])
  else .ok (acc, func)
termination_by sizeOf func
decreasing_by
  cases func
  simp only [Node.object] at ho
  subst ho
  simp
  omega

/-- The part of `getFullItemName` after the call-expression unwrap: run the
member loop, append the name of the base identifier if one remains, reverse the
gathered stack and join with a dot. -/
def fullAfterUnwrap (func : Node) : Except Unit String := do
  let (nm, func) ← fullLoop func []
  let nm := if func.type = "Identifier" then nm ++ [func.name] else nm
  return jsJoin "." nm.reverse

/-- Embeds `tree.getFullItemName`: unwrap a call, gather member property
names in
reverse, append the name of the base identifier, reverse and join with a dot. -/
def getFullItemName (func : Node) : Except Unit String := do
  let func ← if func.type = "CallExpression" then deref func.callee else pure func
  fullAfterUnwrap func

/-- String coercion of a possibly-undefined JS value under JS string
concatenation: an absent name renders as the text undefined. -/
def jsStr (o : Option String) : String := o.getD "undefined"

/-- Embeds `tree.getPartialItemName`: unwrap a call, remember whether the
result is
a member expression, resolve via `getIdentifier`; bare `return;` (that is,
`undefined`, modelled `none`) when that gives `null`. -/
def getPartialItemName (func : Node) : Except Unit (Option String) := do
  let func ← if func.type = "CallExpression" then deref func.callee else pure func
  let isMember := func.type = "MemberExpression"
  let node ← getIdentifier func
  match node with
  | none => return none
  | some n => return some ((if isMember then "." else "") ++ jsStr n.name)

/-- The three function-like node types of the `getParentFunctionIdentifier`
walk. -/
def funcTypes (t : String) : Bool :=
  t = "FunctionExpression" || t = "FunctionDeclaration" ||
    t = "ArrowFunctionExpression"

/--
Embeds `tree.getParentFunctionIdentifier`, on the explicit parent chain
`node :: node.parent :: ...`.  The `while` loop skips non-function nodes
(its `func &&` guard stops on a nullish `func`); the empty chain is that
nullish `func`, on which the source then reads `func.id` — a TypeError,
modelled `.error ()`.  A found function yields its truthy `id`, else the
`id` of the parent (declarator) or its `left` (assignment), else `null`.
-/
def getParentFunctionIdentifier : List Node → Except Unit (Option Node)
  | [] => .error ()
  | func :: rest =>
    if funcTypes func.type then
      match func.id with
      | some i => .ok (some i)
      | none =>
        match rest with
        | parent :: _ =>
          if parent.type = "VariableDeclarator" then .ok parent.id
          else if parent.type = "AssignmentExpression" then .ok parent.left
          else .ok none
        | [] => .ok none
    else getParentFunctionIdentifier rest

/-- JS reference equality `a === b` on node objects: same address. -/
def jsEq (a b : Node) : Bool := a.ref == b.ref

/-- Embeds a `field === node` test where `field` may be nullish: the JS
comparison of null with an object is false. -/
def optEq (a : Option Node) (b : Node) : Bool :=
  match a with
  | some x => jsEq x b
  | none => false

/-- Embeds `tree.isParameter`: dispatch on the type of the containing
expression;
the two `forEach` loops set a flag when an element `===` the node. -/
def isParameter (node expr : Node) : Bool :=
  if expr.type = "CallExpression" then
    expr.arguments.foldl (fun acc a => if jsEq a node then true else acc) false
  else if expr.type = "AssignmentExpression" then optEq expr.right node
  else if expr.type = "VariableDeclarator" then optEq expr.init node
  else if expr.type = "Property" then optEq expr.value node
  else if expr.type = "ArrayExpression" then
    expr.elements.foldl (fun acc e => if jsEq e node then true else acc) false
  else if expr.type = "FunctionExpression" then false
  else if expr.type = "ConditionalExpression" then
    optEq expr.alternate node || optEq expr.consequent node
  else if expr.type = "ArrowFunctionExpression" then optEq expr.body node
  else true

/-- A function-like node of the given type with an optional `id`. -/
def funcNode (r : Nat) (ty : String) (idn : Option Node) : Node :=
  .mk r ty false none none none none idn none none none none none none none [] []

/-- A `var x = ...` declarator with an optional `id` node. -/
def declaratorNode (r : Nat) (idn : Option Node) : Node :=
  .mk r "VariableDeclarator" false none none none none idn none none none none
    none none none [] []

/-- An assignment expression with an optional `left` node. -/
def assignNode (r : Nat) (l : Option Node) : Node :=
  .mk r "AssignmentExpression" false none none none none none l none none none
    none none none [] []

/-- Wrap `base` in successive member expressions; each list entry gives the
the `computed` flag of each member node, its ref and its `property` node, innermost
first, so `mkChain a [(false, _, b), (false, _, c)]` is `a.b.c`. -/
def mkChain (base : Node) : List (Bool × Nat × Node) → Node
  | [] => base
  | (c, r, p) :: rest => mkChain (memberNode r c base p) rest

/-- A plain dotted chain `base.n1.n2...` of identifiers, no computed step. -/
def dottedChain (baseName : String) (names : List String) : Node :=
  mkChain (identNode 0 baseName) (names.map (fun s => (false, 0, identNode 0 s)))

/-- The member fields an ESTree `MemberExpression` always carries. -/
def memberFieldsPresent (n : Node) : Prop :=
  n.type = "MemberExpression" → (n.object.isSome ∧ n.property.isSome)

/-- Field presence along the (at most two-step) unwrap path of
`getIdentifier`, as guaranteed for every real ESTree node. -/
def idPathWF (n : Node) : Prop :=
  (n.type = "CallExpression" → ∃ c, n.callee = some c ∧ memberFieldsPresent c) ∧
    memberFieldsPresent n

@[simp] theorem except_ok_bind {ε α β : Type} (a : α) (f : α → Except ε β) :
    (Except.ok a >>= f) = f a := rfl

@[simp] theorem except_error_bind {ε α β : Type} (e : ε) (f : α → Except ε β) :
    ((Except.error e : Except ε α) >>= f) = .error e := rfl

@[simp] theorem except_pure_eq_ok {ε α : Type} (a : α) :
    (pure a : Except ε α) = .ok a := rfl

theorem fullLoop_member (r : Nat) (c : Bool) (o p : Node)
    (acc : List (Option String)) :
    fullLoop (memberNode r c o p) acc = fullLoop o (acc ++ [p.name]) := by
  rw [fullLoop.eq_def]
  simp [memberNode, Node.type, Node.property, Node.object]

theorem fullLoop_exit (n : Node) (acc : List (Option String))
    (h : n.type ≠ "MemberExpression") : fullLoop n acc = .ok (acc, n) := by
  rw [fullLoop.eq_def]
  simp [h]

theorem fullLoop_mkChain (l : List (Bool × Nat × Node)) (base : Node)
    (acc : List (Option String)) :
    fullLoop (mkChain base l) acc =
      fullLoop base (acc ++ (l.map (fun t => t.2.2.name)).reverse) := by
  induction l generalizing base acc with
  | nil => simp [mkChain]
  | cons hd tl ih =>
    obtain ⟨c, r, p⟩ := hd
    simp only [mkChain, ih, fullLoop_member, List.map_cons, List.reverse_cons]
    rw [List.append_assoc]

theorem fullAfterUnwrap_mkChain (bn : String) (br : Nat)
    (l : List (Bool × Nat × Node)) :
    fullAfterUnwrap (mkChain (identNode br bn) l) =
      .ok (jsJoin "." (some bn :: l.map (fun t => t.2.2.name))) := by
  unfold fullAfterUnwrap
  rw [fullLoop_mkChain, fullLoop_exit _ _ (by simp [identNode, Node.type])]
  simp [identNode, Node.type, Node.name]

theorem getFullItemName_notCall (f : Node) (h : f.type ≠ "CallExpression") :
    getFullItemName f = fullAfterUnwrap f := by
  unfold getFullItemName
  simp [h]

theorem getFullItemName_call (r : Nat) (cal : Node) (args : List Node) :
    getFullItemName (callNode r cal args) = fullAfterUnwrap cal := by
  unfold getFullItemName
  simp [callNode, Node.type, Node.callee, deref]

theorem foldl_flag (p : Node → Bool) (l : List Node) (acc : Bool) :
    l.foldl (fun acc a => if p a then true else acc) acc = (acc || l.any p) := by
  induction l generalizing acc with
  | nil => simp
  | cons hd tl ih =>
    by_cases h : p hd
    · rw [List.foldl_cons, if_pos h, ih]
      simp [h]
    · rw [List.foldl_cons, if_neg h, ih]
      simp [h]

theorem gPFI_skip (pre rest : List Node)
    (h : ∀ x ∈ pre, funcTypes x.type = false) :
    getParentFunctionIdentifier (pre ++ rest) =
      getParentFunctionIdentifier rest := by
  induction pre with
  | nil => rfl
  | cons hd tl ih =>
    have hhd : funcTypes hd.type = false := h hd (by simp)
    simp only [List.cons_append, getParentFunctionIdentifier, hhd,
      Bool.false_eq_true, if_false]
    exact ih (fun x hx => h x (by simp [hx]))

@[simp] theorem deref_some (n : Node) : deref (some n) = .ok n := rfl

@[simp] theorem deref_none : deref none = .error () := rfl

theorem deref_isSome (o : Option Node) (h : o.isSome) :
    deref o = .ok (o.get h) := by
  cases o with
  | none => simp at h
  | some x => rfl

theorem idUnwrap_wf (n : Node) (h : idPathWF n) : ∃ m, idUnwrap n = .ok m := by
  obtain ⟨hc, hm⟩ := h
  unfold idUnwrap
  by_cases h1 : n.type = "CallExpression"
  · obtain ⟨c, hcc, hcm⟩ := hc h1
    rw [if_pos h1, hcc]
    simp only [deref_some, except_ok_bind]
    by_cases h2 : c.type = "MemberExpression"
    · obtain ⟨ho, hp⟩ := hcm h2
      rw [if_pos h2]
      by_cases h3 : c.computed = true
      · rw [if_pos h3, deref_isSome _ ho]; exact ⟨_, rfl⟩
      · rw [if_neg h3, deref_isSome _ hp]; exact ⟨_, rfl⟩
    · rw [if_neg h2]; exact ⟨c, rfl⟩
  · rw [if_neg h1]
    simp only [except_pure_eq_ok, except_ok_bind]
    by_cases h2 : n.type = "MemberExpression"
    · obtain ⟨ho, hp⟩ := hm h2
      rw [if_pos h2]
      by_cases h3 : n.computed = true
      · rw [if_pos h3, deref_isSome _ ho]; exact ⟨_, rfl⟩
      · rw [if_neg h3, deref_isSome _ hp]; exact ⟨_, rfl⟩
    · rw [if_neg h2]; exact ⟨n, rfl⟩

theorem getIdentifier_wf (n : Node) (h : idPathWF n) :
    ∃ r, getIdentifier n = .ok r := by
  obtain ⟨m, hm⟩ := idUnwrap_wf n h
  unfold getIdentifier
  rw [hm]
  by_cases h2 : m.type = "Identifier"
  · exact ⟨some m, by simp [h2]⟩
  · exact ⟨none, by simp [h2]⟩

/-- Claim C8: `getIdentifier` is the identity on `Identifier` nodes, and for
any input whose two unwrap steps leave a node that is not an `Identifier`,
it returns `null`. -/
theorem claim_C8 :
    (∀ n : Node, n.type = "Identifier" → getIdentifier n = .ok (some n)) ∧
    (∀ n m : Node, idUnwrap n = .ok m → m.type ≠ "Identifier" →
      getIdentifier n = .ok none) := by
  constructor
  · intro n h
    have hu : idUnwrap n = .ok n := by
      unfold idUnwrap
      simp [h]
    unfold getIdentifier
    rw [hu]
    simp [h]
  · intro n m hu hm
    unfold getIdentifier
    rw [hu]
    simp [hm]

theorem claim_C8_witness :
    getIdentifier (identNode 0 "x") = .ok (some (identNode 0 "x")) ∧
    getIdentifier (bareNode 1 "Literal") = .ok none :=
  ⟨claim_C8.1 (identNode 0 "x") rfl,
   claim_C8.2 (bareNode 1 "Literal") (bareNode 1 "Literal") rfl (by decide)⟩

/-- Claim C9: `getNodeName` returns "this" on every `ThisExpression`; on
any other node it returns the name of the resolved identifier when
`getIdentifier` gives one, the empty string when `getIdentifier` gives
`null`, and it never throws on nodes whose unwrap path has its ESTree
fields. -/
theorem claim_C9 :
    (∀ n : Node, n.type = "ThisExpression" → getNodeName n = .ok (some "this")) ∧
    (∀ n i : Node, n.type ≠ "ThisExpression" → getIdentifier n = .ok (some i) →
      getNodeName n = .ok i.name) ∧
    (∀ n : Node, n.type ≠ "ThisExpression" → getIdentifier n = .ok none →
      getNodeName n = .ok (some "")) ∧
    (∀ n : Node, idPathWF n → ∃ r, getNodeName n = .ok r) := by
  refine ⟨?_, ?_, ?_, ?_⟩
  · intro n h
    unfold getNodeName
    simp [h]
  · intro n i hn hgi
    unfold getNodeName
    rw [if_neg hn, hgi]
    simp
  · intro n hn hgi
    unfold getNodeName
    rw [if_neg hn, hgi]
    simp
  · intro n hwf
    by_cases hn : n.type = "ThisExpression"
    · exact ⟨some "this", by unfold getNodeName; simp [hn]⟩
    · obtain ⟨r, hr⟩ := getIdentifier_wf n hwf
      cases r with
      | none => exact ⟨some "", by unfold getNodeName; rw [if_neg hn, hr]; simp⟩
      | some i => exact ⟨i.name, by unfold getNodeName; rw [if_neg hn, hr]; simp⟩

theorem claim_C9_witness :
    getNodeName (bareNode 2 "ThisExpression") = .ok (some "this") ∧
    getNodeName (identNode 0 "x") = .ok (some "x") ∧
    getNodeName (bareNode 1 "Literal") = .ok (some "") ∧
    ∃ r, getNodeName (identNode 3 "y") = .ok r :=
  ⟨claim_C9.1 (bareNode 2 "ThisExpression") rfl,
   claim_C9.2.1 (identNode 0 "x") (identNode 0 "x") (by decide) rfl,
   claim_C9.2.2.1 (bareNode 1 "Literal") (by decide) rfl,
   claim_C9.2.2.2 (identNode 3 "y")
     ⟨fun h => absurd h (by decide), fun h => absurd h (by decide)⟩⟩

/-- Claim C4: `getPartialItemName` unwraps one call layer and resolves via
`getIdentifier`: `a.b.c()` gives ".c" (leading dot for a member callee),
`f()` gives "f" with no dot, and whenever `getIdentifier` returns `null`
the result is `undefined` (`none`), which is distinct from the empty
string. -/
theorem claim_C4 :
    getPartialItemName
        (callNode 9
          (memberNode 8 false
            (memberNode 7 false (identNode 1 "a") (identNode 2 "b"))
            (identNode 3 "c")) []) = .ok (some ".c") ∧
    getPartialItemName (callNode 10 (identNode 1 "f") []) = .ok (some "f") ∧
    (∀ f : Node, f.type ≠ "CallExpression" → getIdentifier f = .ok none →
      getPartialItemName f = .ok none) ∧
    (Except.ok (none : Option String) : Except Unit (Option String)) ≠
      .ok (some "") := by
  refine ⟨rfl, rfl, ?_, by simp⟩
  intro f h1 h2
  unfold getPartialItemName
  rw [if_neg h1]
  simp [h2]

theorem claim_C4_witness :
    getPartialItemName (bareNode 1 "Literal") = .ok none :=
  claim_C4.2.2.1 (bareNode 1 "Literal") (by decide) rfl

theorem names_map_lemma (names : List String) :
    ((names.map (fun s => ((false, 0, identNode 0 s) : Bool × Nat × Node))).map
      (fun t => t.2.2.name)) = names.map some := by
  induction names with
  | nil => rfl
  | cons h t ih =>
    simp only [List.map_cons, ih]
    rfl

theorem jsJoin_some (sep : String) (l : List String) :
    jsJoin sep (l.map some) = String.intercalate sep l := by
  unfold jsJoin
  rw [List.map_map]
  congr 1
  induction l with
  | nil => rfl
  | cons h t ih =>
    simp only [List.map_cons, ih]
    rfl

theorem mkChain_not_call (l : List (Bool × Nat × Node)) (base : Node)
    (h : base.type ≠ "CallExpression") :
    (mkChain base l).type ≠ "CallExpression" := by
  induction l generalizing base with
  | nil => exact h
  | cons hd tl ih =>
    obtain ⟨c, r, p⟩ := hd
    exact ih (memberNode r c base p) (by simp [memberNode, Node.type])

/-- Claim C2: `getFullItemName` round-trips dotted chains: the call form of
`a.b.c(x)` and the bare member chain `a.b.c` both yield `"a.b.c"`, and in
general the property names are collected rightmost-first descending the
`object` links, then reversed and joined with a dot, so the
outermost/leftmost identifier comes first. -/
theorem claim_C2 :
    getFullItemName
        (callNode 9
          (memberNode 8 false
            (memberNode 7 false (identNode 1 "a") (identNode 2 "b"))
            (identNode 3 "c")) [identNode 4 "x"]) = .ok "a.b.c" ∧
    getFullItemName
        (memberNode 8 false
          (memberNode 7 false (identNode 1 "a") (identNode 2 "b"))
          (identNode 3 "c")) = .ok "a.b.c" ∧
    (∀ (bn : String) (names : List String),
      getFullItemName (dottedChain bn names) =
        .ok (String.intercalate "." (bn :: names))) := by
  refine ⟨?_, ?_, ?_⟩
  · rw [getFullItemName_call]
    unfold fullAfterUnwrap
    rw [fullLoop_member, fullLoop_member, fullLoop_exit _ _ (by decide)]
    rfl
  · rw [getFullItemName_notCall _ (by decide)]
    unfold fullAfterUnwrap
    rw [fullLoop_member, fullLoop_member, fullLoop_exit _ _ (by decide)]
    rfl
  · intro bn names
    unfold dottedChain
    rw [getFullItemName_notCall _
      (mkChain_not_call _ _ (by simp [identNode, Node.type])),
      fullAfterUnwrap_mkChain, names_map_lemma, ← List.map_cons some,
      jsJoin_some]

/-- Claim C7: `getFullItemName` reads `property.name` unconditionally along
the member chain: the result formula is independent of every `computed`
flag, the function never throws on well-formed chains, and a computed
member whose property is not an `Identifier` contributes an
`undefined`/empty segment. -/
theorem claim_C7 :
    (∀ (bn : String) (br : Nat) (l : List (Bool × Nat × Node)),
      getFullItemName (mkChain (identNode br bn) l) =
        .ok (jsJoin "." (some bn :: l.map (fun t => t.2.2.name)))) ∧
    getFullItemName
        (mkChain (identNode 1 "a")
          [(true, 2, bareNode 5 "Literal"), (false, 3, identNode 4 "c")]) =
      .ok "a..c" := by
  constructor
  · intro bn br l
    rw [getFullItemName_notCall _
      (mkChain_not_call _ _ (by simp [identNode, Node.type])),
      fullAfterUnwrap_mkChain]
  · rw [getFullItemName_notCall _
      (mkChain_not_call _ _ (by simp [identNode, Node.type])),
      fullAfterUnwrap_mkChain]
    rfl

/-- Claim C1 (code bug): on a parent chain containing no
`FunctionExpression` / `FunctionDeclaration` / `ArrowFunctionExpression`
node the walk runs off the root, leaving `func` nullish, and the source
then reads `func.id`: `getParentFunctionIdentifier` throws a TypeError
instead of returning `null`. -/
theorem claim_C1 :
    ∀ chain : List Node, (∀ x ∈ chain, funcTypes x.type = false) →
      getParentFunctionIdentifier chain = .error () := by
  intro chain h
  have hs := gPFI_skip chain [] h
  rw [List.append_nil] at hs
  rw [hs]
  rfl

theorem claim_C1_witness :
    getParentFunctionIdentifier [identNode 0 "x"] = .error () :=
  claim_C1 [identNode 0 "x"] (by decide)

/-- Claim C5: once the walk finds a function-like node `f` (after skipping
any non-function prefix), `getParentFunctionIdentifier` returns the own
`id` of `f` when present; otherwise the `id` of the immediate parent when
it is a `VariableDeclarator`, the `left` of the parent when it is an
`AssignmentExpression`, and `null` in all other cases — in particular
`function foo(){}` resolves to `foo` and `var bar = function(){}` to
`bar`. -/
theorem claim_C5 :
    (∀ (pre : List Node) (f : Node) (rest : List Node) (i : Node),
      (∀ x ∈ pre, funcTypes x.type = false) → funcTypes f.type = true →
      f.id = some i →
      getParentFunctionIdentifier (pre ++ f :: rest) = .ok (some i)) ∧
    (∀ (pre : List Node) (f parent : Node) (rest : List Node),
      (∀ x ∈ pre, funcTypes x.type = false) → funcTypes f.type = true →
      f.id = none → parent.type = "VariableDeclarator" →
      getParentFunctionIdentifier (pre ++ f :: parent :: rest) =
        .ok parent.id) ∧
    (∀ (pre : List Node) (f parent : Node) (rest : List Node),
      (∀ x ∈ pre, funcTypes x.type = false) → funcTypes f.type = true →
      f.id = none → parent.type = "AssignmentExpression" →
      getParentFunctionIdentifier (pre ++ f :: parent :: rest) =
        .ok parent.left) ∧
    (∀ (pre : List Node) (f parent : Node) (rest : List Node),
      (∀ x ∈ pre, funcTypes x.type = false) → funcTypes f.type = true →
      f.id = none → parent.type ≠ "VariableDeclarator" →
      parent.type ≠ "AssignmentExpression" →
      getParentFunctionIdentifier (pre ++ f :: parent :: rest) = .ok none) ∧
    (∀ (pre : List Node) (f : Node),
      (∀ x ∈ pre, funcTypes x.type = false) → funcTypes f.type = true →
      f.id = none → getParentFunctionIdentifier (pre ++ [f]) = .ok none) ∧
    getParentFunctionIdentifier
        [identNode 0 "n",
         funcNode 1 "FunctionDeclaration" (some (identNode 2 "foo"))] =
      .ok (some (identNode 2 "foo")) ∧
    getParentFunctionIdentifier
        [identNode 0 "n", funcNode 1 "FunctionExpression" none,
         declaratorNode 3 (some (identNode 4 "bar"))] =
      .ok (some (identNode 4 "bar")) := by
  refine ⟨?_, ?_, ?_, ?_, ?_, rfl, rfl⟩
  · intro pre f rest i hpre hf hid
    rw [gPFI_skip _ _ hpre]
    simp [getParentFunctionIdentifier, hf, hid]
  · intro pre f parent rest hpre hf hid hp
    rw [gPFI_skip _ _ hpre]
    simp [getParentFunctionIdentifier, hf, hid, hp]
  · intro pre f parent rest hpre hf hid hp
    rw [gPFI_skip _ _ hpre]
    simp [getParentFunctionIdentifier, hf, hid, hp]
  · intro pre f parent rest hpre hf hid hp1 hp2
    rw [gPFI_skip _ _ hpre]
    simp [getParentFunctionIdentifier, hf, hid, hp1, hp2]
  · intro pre f hpre hf hid
    rw [gPFI_skip _ _ hpre]
    simp [getParentFunctionIdentifier, hf, hid]

theorem claim_C5_witness :
    getParentFunctionIdentifier
        [identNode 5 "k",
         funcNode 1 "FunctionDeclaration" (some (identNode 2 "foo"))] =
      .ok (some (identNode 2 "foo")) :=
  claim_C5.1 [identNode 5 "k"]
    (funcNode 1 "FunctionDeclaration" (some (identNode 2 "foo"))) []
    (identNode 2 "foo") (by decide) (by decide) rfl

/-- Claim C10: the walk tests the starting node itself before following any
parent link: a function-like input node is itself the selected function —
its own `id` (or the declarator `id` / assignment `left` of its own
immediate parent) is
returned, not that of a strictly enclosing function. -/
theorem claim_C10 :
    (∀ (f : Node) (rest : List Node) (i : Node), funcTypes f.type = true →
      f.id = some i →
      getParentFunctionIdentifier (f :: rest) = .ok (some i)) ∧
    (∀ (f parent : Node) (rest : List Node), funcTypes f.type = true →
      f.id = none → parent.type = "VariableDeclarator" →
      getParentFunctionIdentifier (f :: parent :: rest) = .ok parent.id) ∧
    (∀ (f parent : Node) (rest : List Node), funcTypes f.type = true →
      f.id = none → parent.type = "AssignmentExpression" →
      getParentFunctionIdentifier (f :: parent :: rest) = .ok parent.left) ∧
    getParentFunctionIdentifier
        [funcNode 1 "FunctionDeclaration" (some (identNode 2 "inner")),
         funcNode 3 "FunctionDeclaration" (some (identNode 4 "outer"))] =
      .ok (some (identNode 2 "inner")) := by
  refine ⟨?_, ?_, ?_, rfl⟩
  · intro f rest i hf hid
    simp [getParentFunctionIdentifier, hf, hid]
  · intro f parent rest hf hid hp
    simp [getParentFunctionIdentifier, hf, hid, hp]
  · intro f parent rest hf hid hp
    simp [getParentFunctionIdentifier, hf, hid, hp]

theorem claim_C10_witness :
    getParentFunctionIdentifier
        [funcNode 6 "ArrowFunctionExpression" (some (identNode 7 "g")),
         identNode 9 "z"] = .ok (some (identNode 7 "g")) :=
  claim_C10.1 (funcNode 6 "ArrowFunctionExpression" (some (identNode 7 "g")))
    [identNode 9 "z"] (identNode 7 "g") (by decide) rfl

/-- Claim C6 counterexample: for an anonymous function assigned through a
member expression (`a.b = function(){}`), `getParentFunctionIdentifier`
returns the `left` of the assignment, which is a `MemberExpression`, not an
`Identifier`. -/
theorem claim_C6_cex :
    getParentFunctionIdentifier
        [identNode 1 "x", funcNode 2 "FunctionExpression" none,
         assignNode 3
           (some (memberNode 5 false (identNode 6 "a") (identNode 7 "b")))] =
      .ok (some (memberNode 5 false (identNode 6 "a") (identNode 7 "b"))) ∧
    (memberNode 5 false (identNode 6 "a") (identNode 7 "b")).type ≠
      "Identifier" :=
  ⟨rfl, by decide⟩

/-- Claim C6 (amended): every non-null value returned by
`getParentFunctionIdentifier` is an `Identifier` node provided every `id`
field and every `left` field of the nodes on the chain is an `Identifier`
when present; without that proviso the returned node is whatever the
function `id`, declarator `id` or assignment `left` happens to be. -/
theorem claim_C6 :
    ∀ (chain : List Node) (v : Node),
      (∀ x ∈ chain,
        (∀ i, x.id = some i → i.type = "Identifier") ∧
        (∀ l, x.left = some l → l.type = "Identifier")) →
      getParentFunctionIdentifier chain = .ok (some v) →
      v.type = "Identifier" := by
  intro chain
  induction chain with
  | nil =>
    intro v _ hres
    simp [getParentFunctionIdentifier] at hres
  | cons hd tl ih =>
    intro v hcond hres
    by_cases hf : funcTypes hd.type = true
    · cases hid : hd.id with
      | some i =>
        simp only [getParentFunctionIdentifier, hf, hid, if_true,
          Except.ok.injEq, Option.some.injEq] at hres
        subst hres
        exact (hcond hd (by simp)).1 i hid
      | none =>
        cases tl with
        | nil =>
          simp [getParentFunctionIdentifier, hf, hid] at hres
        | cons parent t =>
          by_cases hp1 : parent.type = "VariableDeclarator"
          · simp only [getParentFunctionIdentifier, hf, hid, hp1, if_true,
              Except.ok.injEq] at hres
            exact (hcond parent (by simp)).1 v hres
          · by_cases hp2 : parent.type = "AssignmentExpression"
            · simp [getParentFunctionIdentifier, hf, hid, hp1, hp2] at hres
              exact (hcond parent (by simp)).2 v hres
            · simp [getParentFunctionIdentifier, hf, hid, hp1, hp2] at hres
    · simp only [getParentFunctionIdentifier, hf] at hres
      exact ih v (fun x hx => hcond x (by simp [hx])) hres

theorem claim_C6_witness :
    (identNode 8 "foo").type = "Identifier" :=
  claim_C6 [funcNode 2 "FunctionExpression" (some (identNode 8 "foo"))]
    (identNode 8 "foo")
    (by
      intro x hx
      simp only [List.mem_singleton] at hx
      subst hx
      constructor
      · intro i h
        simp only [funcNode, Node.id, Option.some.injEq] at h
        subst h
        rfl
      · intro l h
        simp [funcNode, Node.left] at h)
    rfl

/-- Claim C3: `isParameter` follows its dispatch table exactly, with
reference identity (same object address) as the equality: call arguments,
assignment `right`, declarator `init`, property `value`, array elements,
`false` for a `FunctionExpression`, conditional `consequent`/`alternate`
(never the test), arrow `body`, and `true` for every other containing
type; a structurally identical but distinct node does not qualify. -/
theorem claim_C3 :
    (∀ (node expr : Node),
      (expr.type = "CallExpression" →
        (isParameter node expr = true ↔
          ∃ a ∈ expr.arguments, a.ref = node.ref)) ∧
      (expr.type = "AssignmentExpression" →
        (isParameter node expr = true ↔
          ∃ r, expr.right = some r ∧ r.ref = node.ref)) ∧
      (expr.type = "VariableDeclarator" →
        (isParameter node expr = true ↔
          ∃ r, expr.init = some r ∧ r.ref = node.ref)) ∧
      (expr.type = "Property" →
        (isParameter node expr = true ↔
          ∃ r, expr.value = some r ∧ r.ref = node.ref)) ∧
      (expr.type = "ArrayExpression" →
        (isParameter node expr = true ↔
          ∃ e ∈ expr.elements, e.ref = node.ref)) ∧
      (expr.type = "FunctionExpression" → isParameter node expr = false) ∧
      (expr.type = "ConditionalExpression" →
        (isParameter node expr = true ↔
          ((∃ r, expr.consequent = some r ∧ r.ref = node.ref) ∨
           (∃ r, expr.alternate = some r ∧ r.ref = node.ref)))) ∧
      (expr.type = "ArrowFunctionExpression" →
        (isParameter node expr = true ↔
          ∃ r, expr.body = some r ∧ r.ref = node.ref)) ∧
      (expr.type ≠ "CallExpression" → expr.type ≠ "AssignmentExpression" →
        expr.type ≠ "VariableDeclarator" → expr.type ≠ "Property" →
        expr.type ≠ "ArrayExpression" → expr.type ≠ "FunctionExpression" →
        expr.type ≠ "ConditionalExpression" →
        expr.type ≠ "ArrowFunctionExpression" →
        isParameter node expr = true)) ∧
    isParameter (identNode 2 "x")
        (callNode 3 (identNode 4 "f") [identNode 1 "x"]) = false ∧
    isParameter (identNode 1 "x")
        (callNode 3 (identNode 4 "f") [identNode 1 "x"]) = true := by
  refine ⟨?_, by decide, by decide⟩
  intro node expr
  refine ⟨?_, ?_, ?_, ?_, ?_, ?_, ?_, ?_, ?_⟩
  · intro h
    rw [isParameter, if_pos h, foldl_flag]
    simp [List.any_eq_true, jsEq]
  · intro h
    cases hr : expr.right with
    | none => simp [isParameter, h, hr, optEq]
    | some x => simp [isParameter, h, hr, optEq, jsEq]
  · intro h
    cases hr : expr.init with
    | none => simp [isParameter, h, hr, optEq]
    | some x => simp [isParameter, h, hr, optEq, jsEq]
  · intro h
    cases hr : expr.value with
    | none => simp [isParameter, h, hr, optEq]
    | some x => simp [isParameter, h, hr, optEq, jsEq]
  · intro h
    rw [isParameter, if_neg (by simp [h]), if_neg (by simp [h]),
      if_neg (by simp [h]), if_neg (by simp [h]), if_pos h, foldl_flag]
    simp [List.any_eq_true, jsEq]
  · intro h
    simp [isParameter, h]
  · intro h
    cases ha : expr.alternate with
    | none =>
      cases hc : expr.consequent with
      | none => simp [isParameter, h, ha, hc, optEq]
      | some y => simp [isParameter, h, ha, hc, optEq, jsEq]
    | some x =>
      cases hc : expr.consequent with
      | none => simp [isParameter, h, ha, hc, optEq, jsEq]
      | some y =>
        simp only [isParameter, h, ha, hc, optEq, jsEq]
        simp [or_comm]
  · intro h
    cases hr : expr.body with
    | none => simp [isParameter, h, hr, optEq]
    | some x => simp [isParameter, h, hr, optEq, jsEq]
  · intro h1 h2 h3 h4 h5 h6 h7 h8
    simp [isParameter, h1, h2, h3, h4, h5, h6, h7, h8]

theorem claim_C3_witness :
    isParameter (identNode 1 "x") (bareNode 9 "BinaryExpression") = true :=
  (claim_C3.1 (identNode 1 "x")
      (bareNode 9 "BinaryExpression")).2.2.2.2.2.2.2.2
    (by decide) (by decide) (by decide) (by decide) (by decide) (by decide)
    (by decide) (by decide)
